import Mathlib

/-!
Shallow embedding of the viewport-navigation core of the lqtImageViewer
repository (files `_view.py`, `_viewport.py`, `config/_shortcut.py`,
`config/_backgroundstyle.py`, `plugins/_colorpicker.py`).

Conventions used throughout:
* Python/Qt floating-point values are idealized as rationals (`ℚ`);
  machine integers are `ℤ`/`ℕ` (Python integers are unbounded anyway).
* Qt value types (`QPointF`, `QRectF`, `QRect`) are embedded with the
  semantics of the Qt library functions the source calls.
* Stateful methods become pure functions from state to state.
-/

namespace LIV

/-- A point with rational coordinates, embedding Qt QPointF. -/
structure QPointF where
  x : ℚ
  y : ℚ
deriving DecidableEq, Repr

/-- A point with integer coordinates, embedding Qt QPoint. -/
structure QPoint where
  x : ℤ
  y : ℤ
deriving DecidableEq, Repr

/-- A rational rectangle stored as top-left corner plus size, embedding Qt
QRectF (which stores x, y, w, h). -/
structure QRectF where
  x : ℚ
  y : ℚ
  w : ℚ
  h : ℚ
deriving DecidableEq, Repr

/-- QRectF.center: the point (x + w/2, y + h/2). -/
def QRectF.center (r : QRectF) : QPointF :=
  ⟨r.x + r.w / 2, r.y + r.h / 2⟩

/-- QRectF.moveCenter: translate the rectangle (size unchanged) so that its
center coincides with the given point. -/
def QRectF.moveCenter (r : QRectF) (c : QPointF) : QRectF :=
  { r with x := c.x - r.w / 2, y := c.y - r.h / 2 }

/-- QRectF.adjusted(dx1, dy1, dx2, dy2): move the top-left corner by
(dx1, dy1) and the bottom-right corner by (dx2, dy2). -/
def QRectF.adjusted (r : QRectF) (dx1 dy1 dx2 dy2 : ℚ) : QRectF :=
  ⟨r.x + dx1, r.y + dy1, r.w + dx2 - dx1, r.h + dy2 - dy1⟩

/-- QRectF.setWidth: change the width, keeping the top-left corner. -/
def QRectF.setWidth (r : QRectF) (w : ℚ) : QRectF :=
  { r with w := w }

/-- QRectF.setHeight: change the height, keeping the top-left corner. -/
def QRectF.setHeight (r : QRectF) (h : ℚ) : QRectF :=
  { r with h := h }

/-- The `GraphicViewState` IntFlag of `_view.py` (noneState, panState,
zoomState, pickState, unpickState are five distinct single-bit flags).  A
bitmask over five fixed distinct bits is embedded as one Bool per flag;
`|`, `^` and `&` act bitwise, i.e. field-wise. -/
structure GraphicViewState where
  noneFlag : Bool
  panFlag : Bool
  zoomFlag : Bool
  pickFlag : Bool
  unpickFlag : Bool
deriving DecidableEq, Repr

/-- The `GraphicViewState.noneState` flag constant. -/
def GraphicViewState.noneState : GraphicViewState :=
  ⟨true, false, false, false, false⟩

/-- The `GraphicViewState.panState` flag constant. -/
def GraphicViewState.panState : GraphicViewState :=
  ⟨false, true, false, false, false⟩

/-- The `GraphicViewState.zoomState` flag constant. -/
def GraphicViewState.zoomState : GraphicViewState :=
  ⟨false, false, true, false, false⟩

/-- Bitwise or of two flag sets (Python `state | flag`). -/
def GraphicViewState.orF (a b : GraphicViewState) : GraphicViewState :=
  ⟨a.noneFlag || b.noneFlag, a.panFlag || b.panFlag, a.zoomFlag || b.zoomFlag,
    a.pickFlag || b.pickFlag, a.unpickFlag || b.unpickFlag⟩

/-- Bitwise xor of two flag sets (Python `state ^ flag`). -/
def GraphicViewState.xorF (a b : GraphicViewState) : GraphicViewState :=
  ⟨xor a.noneFlag b.noneFlag, xor a.panFlag b.panFlag, xor a.zoomFlag b.zoomFlag,
    xor a.pickFlag b.pickFlag, xor a.unpickFlag b.unpickFlag⟩

/-- Bitwise and of two flag sets (Python `state & flag`). -/
def GraphicViewState.andF (a b : GraphicViewState) : GraphicViewState :=
  ⟨a.noneFlag && b.noneFlag, a.panFlag && b.panFlag, a.zoomFlag && b.zoomFlag,
    a.pickFlag && b.pickFlag, a.unpickFlag && b.unpickFlag⟩

/-- Python truthiness of an IntFlag value: nonzero, i.e. some flag is set. -/
def GraphicViewState.isTruthy (a : GraphicViewState) : Bool :=
  a.noneFlag || a.panFlag || a.zoomFlag || a.pickFlag || a.unpickFlag

/-- State of a `NavigableGraphicView` (`_view.py`).  `zoom` is the `_zoom`
attribute; `tzoom` is the scale factor of the QTransform currently applied
to the view (set by `_update_scene_rect` via `setTransform`), which is what
Qt's `mapToScene` actually uses; `sceneRect` is the visible WorldRect;
`vpW`/`vpH` are the viewport device size; `viewOrigin` is the constant
offset subtracted by `mapFromGlobal` (position of the widget on screen). -/
structure NavView where
  zoom_enable : Bool
  zoom : ℚ
  tzoom : ℚ
  sceneRect : QRectF
  vpW : ℚ
  vpH : ℚ
  viewOrigin : QPointF
  state : GraphicViewState
  mousePrev : Option QPoint
  mouseInit : Option QPoint
deriving DecidableEq, Repr

/-- Class attribute `NavigableGraphicView.zoom_min = 0.1`. -/
def zoom_min : ℚ := 1 / 10

/-- Class attribute `NavigableGraphicView.zoom_max = 20`. -/
def zoom_max : ℚ := 20

/-- `NavigableGraphicView._pan_viewport`: translate the scene rect by
(x_amount, y_amount) via `sceneRect().adjusted(x, y, x, y)`. -/
def pan_viewport (x_amount y_amount : ℚ) (st : NavView) : NavView :=
  { st with sceneRect := st.sceneRect.adjusted x_amount y_amount x_amount y_amount }

/-- `NavigableGraphicView._update_scene_rect`: recompute the scene rect
dimensions from the viewport size and the zoom (minus the 0.5 stabilization
epsilon), keeping the top-left corner, then set the view transform to a
pure scale by the zoom. -/
def update_scene_rect (st : NavView) : NavView :=
  let width := if st.zoom_enable then st.vpW / st.zoom - 1/2 else st.vpW
  let height := if st.zoom_enable then st.vpH / st.zoom - 1/2 else st.vpH
  let st1 := { st with sceneRect := (st.sceneRect.setWidth width).setHeight height }
  if st1.zoom_enable then { st1 with tzoom := st1.zoom } else st1

/-- QWidget.mapFromGlobal: global screen coordinates to widget-local
(viewport) coordinates, a constant translation. -/
def mapFromGlobal (st : NavView) (p : QPointF) : QPointF :=
  ⟨p.x - st.viewOrigin.x, p.y - st.viewOrigin.y⟩

/-- QGraphicsView.mapToScene on a viewport point, for the configuration the
view is always in here: the transform is a pure scale by `tzoom`, the
transformed scene rect fits inside the viewport (its width is
`vpW - tzoom/2 < vpW`), so with the default AlignCenter alignment Qt
centers the scene in the viewport and
`mapToScene(p) = p / tzoom + sceneRect.topLeft - (viewportSize / tzoom - sceneRect.size) / 2`.
Qt's integer scrollbar arithmetic is idealized over ℚ. -/
def mapToScene (st : NavView) (p : QPointF) : QPointF :=
  ⟨p.x / st.tzoom + st.sceneRect.x - (st.vpW / st.tzoom - st.sceneRect.w) / 2,
    p.y / st.tzoom + st.sceneRect.y - (st.vpH / st.tzoom - st.sceneRect.h) / 2⟩

/-- `NavigableGraphicView._zoom_viewport(amount, cursor_pos)`: no-op when
zoom is disabled; compute `new_zoom = _zoom * amount` (the source applies
no rounding); no-op when the result leaves [zoom_min, zoom_max]; otherwise
store the new zoom, capture the scene position under the cursor, resize the
scene rect (which also updates the view transform), capture the new scene
position under the cursor, and pan by the difference. -/
def zoom_viewport (amount : ℚ) (cursor_pos : QPointF) (st : NavView) : NavView :=
  if st.zoom_enable = false then st
  else
    let new_zoom := st.zoom * amount
    if new_zoom < zoom_min ∨ zoom_max < new_zoom then st
    else
      let st1 := { st with zoom := new_zoom }
      let previous_pos := mapToScene st1 (mapFromGlobal st1 cursor_pos)
      let st2 := update_scene_rect st1
      let after_pos := mapToScene st2 (mapFromGlobal st2 cursor_pos)
      pan_viewport (previous_pos.x - after_pos.x) (previous_pos.y - after_pos.y) st2

/-- `NavigableGraphicView._reset_zoom`: zoom by the inverse of the current
zoom, anchored at the current cursor position. -/
def reset_zoom (cursor_pos : QPointF) (st : NavView) : NavView :=
  zoom_viewport (1 / st.zoom) cursor_pos st

/-- `LIVGraphicView._center_image`: move the scene rect (size unchanged) so
its center coincides with the center of the image bounding rect.  This is
what the `reset_pan` key shortcut triggers in `LIVGraphicView.keyPressEvent`. -/
def center_image (image_rect : QRectF) (st : NavView) : NavView :=
  { st with sceneRect := st.sceneRect.moveCenter image_rect.center }

/-- `NavigableGraphicView.mouseReleaseEvent`: reset the mouse tracking
fields to None and clear the pan and zoom flags (each via `state ^ flag`
guarded by `state & flag`).  The source also resets the
`_selected_items_initial` bookkeeping list and chains to the Qt base
handler, neither of which touches navigation state. -/
def mouseReleaseEvent (st : NavView) : NavView :=
  let st := { st with mousePrev := none, mouseInit := none }
  let st := if (st.state.andF GraphicViewState.panState).isTruthy
    then { st with state := st.state.xorF GraphicViewState.panState } else st
  let st := if (st.state.andF GraphicViewState.zoomState).isTruthy
    then { st with state := st.state.xorF GraphicViewState.zoomState } else st
  st

/-- A zoom operation on the view, as dispatched by the event handlers of
`_view.py`.  `wheelZoom` covers `wheelEvent` (there `amount` is
`2 ** (angleDelta * 0.001)` and the anchor is the cursor position);
`dragZoom` covers the zoom branch of `mouseMoveEvent` (amount
`1 + diff * 0.01`, anchored at the initial press position); `resetZoom`
covers the `reset_zoom` key shortcut.  All three funnel into
`_zoom_viewport`; the amounts are left universally quantified, which
subsumes every value the handlers can produce. -/
inductive NavOp where
  | wheelZoom (amount : ℚ) (cursor : QPointF)
  | dragZoom (diff : ℚ) (anchor : QPointF)
  | resetZoom (cursor : QPointF)
deriving Repr

/-- Apply one navigation zoom operation. -/
def applyNavOp (st : NavView) : NavOp → NavView
  | .wheelZoom amount cursor => zoom_viewport amount cursor st
  | .dragZoom diff anchor => zoom_viewport (1 + diff * (1/100)) anchor st
  | .resetZoom cursor => reset_zoom cursor st

/-- Apply a sequence of navigation zoom operations, oldest first. -/
def applyNavOps (ops : List NavOp) (st : NavView) : NavView :=
  ops.foldl applyNavOp st

/-- The zoom-clamping range invariant of the view. -/
def zoomInRange (z : ℚ) : Prop := zoom_min ≤ z ∧ z ≤ zoom_max

/-! Shortcut matcher (`config/_shortcut.py`). -/

/-- Qt.KeyboardModifier values, as bitmask constants. -/
def NoModifier : ℕ := 0

/-- Qt.KeyboardModifier.ShiftModifier. -/
def ShiftModifier : ℕ := 0x02000000

/-- Qt.KeyboardModifier.ControlModifier. -/
def ControlModifier : ℕ := 0x04000000

/-- Qt.KeyboardModifier.AltModifier. -/
def AltModifier : ℕ := 0x08000000

/-- Qt.MouseButton.NoButton. -/
def NoButton : ℕ := 0

/-- Qt.MouseButton.LeftButton. -/
def LeftButton : ℕ := 1

/-- Qt.MouseButton.RightButton. -/
def RightButton : ℕ := 2

/-- Qt.MouseButton.MiddleButton. -/
def MiddleButton : ℕ := 4

/-- Qt.Key.Key_Home. -/
def Key_Home : ℕ := 0x01000010

/-- Qt.Key.Key_F. -/
def Key_F : ℕ := 0x46

/-- Qt.Key.Key_B. -/
def Key_B : ℕ := 0x42

/-- Qt.Key.Key_Q. -/
def Key_Q : ℕ := 0x51

/-- Qt.Key.Key_E. -/
def Key_E : ℕ := 0x45

/-- Qt.Key.Key_C. -/
def Key_C : ℕ := 0x43

/-- Qt.Key.Key_Shift. -/
def Key_Shift : ℕ := 0x01000020

/-- Qt.Key.Key_Alt. -/
def Key_Alt : ℕ := 0x01000023

/-- The primary input of a shortcut: a Qt key code or a mouse button.  The
Python field holds either a `Qt.Key` or a `Qt.MouseButton` enum member;
members of different enums never compare equal, hence a tagged union. -/
inductive InputCode where
  | keyCode (code : ℕ)
  | mouseButton (code : ℕ)
deriving DecidableEq, Repr

/-- `ShortcutModifierMatching` enum of `config/_shortcut.py`. -/
inductive ShortcutModifierMatching where
  | exact
  | contains_all
  | contains_any
deriving DecidableEq, Repr

/-- The Qt event types distinguished by the embedded handlers. -/
inductive QEventType where
  | GraphicsSceneMousePress
  | GraphicsSceneMouseMove
  | GraphicsSceneMouseRelease
  | KeyPress
  | MouseButtonPress
  | OtherType
deriving DecidableEq, Repr

/-- The payload that `LIVKeyShortcut.match_event` inspects through
isinstance checks: QKeyEvent carries `key()`, QMouseEvent and
QGraphicsSceneMouseEvent carry `button()`, anything else matches nothing. -/
inductive EventPayload where
  | keyEvent (key : ℕ)
  | mouseEvent (button : ℕ)
  | sceneMouseEvent (button : ℕ)
  | otherEvent
deriving DecidableEq, Repr

/-- A Qt event as consumed by the embedded handlers: its type tag, its
payload class, the active keyboard-modifier bitmask, and (for scene mouse
events) the position in scene coordinates. -/
structure QEvent where
  etype : QEventType
  payload : EventPayload
  modifiers : ℕ
  scenePos : QPointF
deriving DecidableEq, Repr

/-- The primary input code extracted from an event by the isinstance chain
at the top of `match_event`, if any. -/
def eventCode (e : QEvent) : Option InputCode :=
  match e.payload with
  | .keyEvent k => some (.keyCode k)
  | .mouseEvent b => some (.mouseButton b)
  | .sceneMouseEvent b => some (.mouseButton b)
  | .otherEvent => none

/-- `LIVKeyShortcut` dataclass: primary input, optional modifier tuple
(None means ignore modifiers, an empty tuple means no modifier wanted),
and the modifier matching strictness. -/
structure LIVKeyShortcut where
  key : InputCode
  modifiers : Option (List ℕ)
  modifier_matching : ShortcutModifierMatching := ShortcutModifierMatching.exact
deriving DecidableEq, Repr

/-- `LIVKeyShortcut.match_event(event, modifier_matching=None)`: reject
non-key/mouse events; reject per the selected modifier-matching mode
(Python truthiness of `event.modifiers() & modifier` is being nonzero);
reject if the primary input differs; otherwise match. -/
def LIVKeyShortcut.match_event (s : LIVKeyShortcut) (e : QEvent)
    (modifier_matching : Option ShortcutModifierMatching) : Bool :=
  let mm := modifier_matching.getD s.modifier_matching
  match eventCode e with
  | none => false
  | some code =>
    let mods := s.modifiers.getD []
    let exact_modifiers := mods.foldl (fun acc m => acc ||| m) NoModifier
    if s.modifiers.isSome && decide (mm = .exact)
        && !(decide (e.modifiers = exact_modifiers)) then false
    else if s.modifiers.isSome && decide (mm = .contains_all)
        && !(mods.all fun m => !(decide (e.modifiers &&& m = 0))) then false
    else if s.modifiers.isSome && decide (mm = .contains_any)
        && !(mods.any fun m => !(decide (e.modifiers &&& m = 0))) then false
    else if !(decide (s.key = code)) then false
    else true

/-- `LIVKeyShortcuts` dataclass: one binding per logical action. -/
structure LIVKeyShortcuts where
  reset_zoom : LIVKeyShortcut
  change_background : LIVKeyShortcut
  reset_pan : LIVKeyShortcut
  pan1 : LIVKeyShortcut
  pan2 : LIVKeyShortcut
  zoom2 : LIVKeyShortcut
  pick : LIVKeyShortcut
  pick_area_start : LIVKeyShortcut
  pick_area_expand : LIVKeyShortcut
  unpick : LIVKeyShortcut
  view_coordinates1 : LIVKeyShortcut
  view_coordinates2 : LIVKeyShortcut
  set_coordinates_tiles : LIVKeyShortcut
  rotate_90_up : LIVKeyShortcut
  rotate_90_down : LIVKeyShortcut
  clear : LIVKeyShortcut
deriving DecidableEq, Repr

/-- `LIVKeyShortcuts.get_default()`: the default bindings. -/
def LIVKeyShortcuts.get_default : LIVKeyShortcuts where
  reset_zoom := ⟨.keyCode Key_Home, some [], .exact⟩
  reset_pan := ⟨.keyCode Key_F, some [], .exact⟩
  change_background := ⟨.keyCode Key_B, some [], .exact⟩
  pan1 := ⟨.mouseButton LeftButton, some [AltModifier], .contains_all⟩
  pan2 := ⟨.mouseButton MiddleButton, some [NoModifier], .exact⟩
  zoom2 := ⟨.mouseButton MiddleButton, some [AltModifier], .contains_all⟩
  pick := ⟨.mouseButton LeftButton, some [ControlModifier], .exact⟩
  pick_area_start := ⟨.mouseButton LeftButton, some [ControlModifier, ShiftModifier], .exact⟩
  pick_area_expand := ⟨.mouseButton NoButton, some [ControlModifier, ShiftModifier], .exact⟩
  unpick := ⟨.mouseButton RightButton, some [ControlModifier], .exact⟩
  view_coordinates1 := ⟨.keyCode Key_Alt, some [ShiftModifier, AltModifier], .exact⟩
  view_coordinates2 := ⟨.keyCode Key_Shift, some [AltModifier, ShiftModifier], .exact⟩
  set_coordinates_tiles := ⟨.mouseButton MiddleButton, some [AltModifier, ShiftModifier], .exact⟩
  rotate_90_up := ⟨.keyCode Key_Q, some [], .exact⟩
  rotate_90_down := ⟨.keyCode Key_E, some [], .exact⟩
  clear := ⟨.keyCode Key_C, some [AltModifier], .exact⟩

/-! Background style (`config/_backgroundstyle.py`). -/

/-- `BaseBackgroundStyle`: the fields relevant to texture visibility (the
color fields and the brush/pixmap generation are pure Qt painting). -/
structure BaseBackgroundStyle where
  label : String
  use_background_texture : Bool
  texture_zoom_range : Option ℚ × Option ℚ
deriving DecidableEq, Repr

/-- `BaseBackgroundStyle.should_use_background_texture(zoom)`: start from
False; set True if the style uses a texture; force False when a configured
minimum exists and the zoom is below it, or a configured maximum exists and
the zoom is above it (checks skipped when `zoom` is None). -/
def BaseBackgroundStyle.should_use_background_texture
    (s : BaseBackgroundStyle) (zoom : Option ℚ) : Bool :=
  let zoomMin := s.texture_zoom_range.1
  let zoomMax := s.texture_zoom_range.2
  let draw_texture := false
  let draw_texture := if s.use_background_texture then true else draw_texture
  let draw_texture :=
    match zoomMin, zoom with
    | some zmin, some z => if z < zmin then false else draw_texture
    | _, _ => draw_texture
  let draw_texture :=
    match zoomMax, zoom with
    | some zmax, some z => if zmax < z then false else draw_texture
    | _, _ => draw_texture
  draw_texture

/-! Image viewport (`_viewport.py`). -/

/-- An image array embedded by its shape `(rows, cols)`; the claims under
verification only depend on presence and orientation of the array. -/
abbrev ImgShape : Type := ℕ × ℕ

/-- `numpy.rot90(array, k)` on shapes: an odd number of quarter turns swaps
the two axes. -/
def np_rot90 (a : ImgShape) (k : ℤ) : ImgShape :=
  if k % 2 = 0 then a else (a.2, a.1)

/-- State of a `LqtImageViewport`: the stored rotation angle and the
currently loaded image array (None when cleared). -/
structure LqtImageViewport where
  rotation_angle : ℤ
  image_array : Option ImgShape
deriving DecidableEq, Repr

/-- `LqtImageViewport.set_image_from_array`: store the (dtype- and
channel-normalized, shape-preserving) array as the current image.  The
scene update, plugin reload and recentering the method also triggers act
on Qt objects outside this state. -/
def set_image_from_array (a : ImgShape) (st : LqtImageViewport) : LqtImageViewport :=
  { st with image_array := some a }

/-- `LqtImageViewport.rotate_image_90(angle, add_existing)`: raise
ValueError when `angle` is not a multiple of 90 (the check precedes every
mutation, so the state is returned untouched alongside the error);
otherwise update the stored angle (adding or replacing), and when an image
is loaded rotate it by `rotation // 90` quarter turns and return the final
absolute angle, or return None when no image is loaded. -/
def rotate_image_90 (angle : ℤ) (add_existing : Bool) (st : LqtImageViewport) :
    LqtImageViewport × Except String (Option ℤ) :=
  if angle % 90 ≠ 0 then
    (st, .error "expected 90degree increment only")
  else
    let st1 := if add_existing
      then { st with rotation_angle := st.rotation_angle + angle }
      else { st with rotation_angle := angle }
    let rotation := if add_existing then angle else st1.rotation_angle
    match st1.image_array with
    | none => (st1, .ok none)
    | some arr =>
      let st2 := set_image_from_array (np_rot90 arr (Int.fdiv rotation 90)) st1
      (st2, .ok (some st2.rotation_angle))

/-! Color picker plugin (`plugins/_colorpicker.py` and `plugins/_base.py`). -/

/-- An integer rectangle embedded the way Qt QRect stores it: the two
corners (x1, y1) and (x2, y2), with width `x2 - x1 + 1`. -/
structure QRect where
  x1 : ℤ
  y1 : ℤ
  x2 : ℤ
  y2 : ℤ
deriving DecidableEq, Repr

/-- QRect(x, y, w, h) constructor. -/
def QRect.mkXYWH (x y w h : ℤ) : QRect := ⟨x, y, x + w - 1, y + h - 1⟩

/-- QRect.width. -/
def QRect.width (r : QRect) : ℤ := r.x2 - r.x1 + 1

/-- QRect.height. -/
def QRect.height (r : QRect) : ℤ := r.y2 - r.y1 + 1

/-- QRect.topLeft. -/
def QRect.topLeft (r : QRect) : QPoint := ⟨r.x1, r.y1⟩

/-- QRect.bottomRight. -/
def QRect.bottomRight (r : QRect) : QPoint := ⟨r.x2, r.y2⟩

/-- QRect.setTopLeft: set the top-left corner, leaving the bottom-right
corner unchanged. -/
def QRect.setTopLeft (r : QRect) (p : QPoint) : QRect :=
  { r with x1 := p.x, y1 := p.y }

/-- QRect.setSize(w, h): keep the top-left corner, move the bottom-right
corner so the size becomes (w, h). -/
def QRect.setSize (r : QRect) (w h : ℤ) : QRect :=
  { r with x2 := r.x1 + w - 1, y2 := r.y1 + h - 1 }

/-- QRect.setBottomRight: set the bottom-right corner, leaving the top-left
corner unchanged. -/
def QRect.setBottomRight (r : QRect) (p : QPoint) : QRect :=
  { r with x2 := p.x, y2 := p.y }

/-- QRect.normalized (Qt 5 semantics): when the stored width is negative
(`x2 < x1 - 1`) swap x1 and x2, and likewise for y; a rectangle whose
stored width is exactly zero (`x2 = x1 - 1`) is left as it is. -/
def QRect.normalized (r : QRect) : QRect :=
  ⟨if r.x2 < r.x1 - 1 then r.x2 else r.x1,
    if r.y2 < r.y1 - 1 then r.y2 else r.y1,
    if r.x2 < r.x1 - 1 then r.x1 else r.x2,
    if r.y2 < r.y1 - 1 then r.y1 else r.y2⟩

/-- QRectF(QRect) conversion: same top-left corner, width `x2 - x1 + 1`. -/
def QRect.toRectF (r : QRect) : QRectF :=
  ⟨(r.x1 : ℚ), (r.y1 : ℚ), (r.width : ℚ), (r.height : ℚ)⟩

/-- QRectF.contains(QPointF), following the Qt source: compute the left and
right edges (order-normalizing a negative width), return False for a null
span, otherwise test inclusively on both axes. -/
def QRectF.containsPoint (r : QRectF) (p : QPointF) : Bool :=
  let l := if r.w < 0 then r.x + r.w else r.x
  let rr := if r.w < 0 then r.x else r.x + r.w
  if l = rr then false
  else if p.x < l ∨ rr < p.x then false
  else
    let t := if r.h < 0 then r.y + r.h else r.y
    let b := if r.h < 0 then r.y else r.y + r.h
    if t = b then false
    else if p.y < t ∨ b < p.y then false
    else true

/-- Python `int(float)` truncation toward zero, applied to a rational. -/
def pyInt (q : ℚ) : ℤ := if 0 ≤ q then ⌊q⌋ else ⌈q⌉

/-- `_pointf_to_point` of `plugins/_colorpicker.py`: per-axis `int()`
truncation of a QPointF. -/
def pointf_to_point (p : QPointF) : QPoint := ⟨pyInt p.x, pyInt p.y⟩

/-- A QTransform restricted to axis-aligned scale plus translation, which
is the only shape of transform the view ever hands to the plugins
(`QTransform().scale(zoom, zoom)`). -/
structure ScaleTranslate where
  m11 : ℚ
  m22 : ℚ
  dx : ℚ
  dy : ℚ
deriving DecidableEq, Repr

/-- QTransform.map on a point, for a scale-plus-translate transform. -/
def ScaleTranslate.mapPoint (t : ScaleTranslate) (p : QPointF) : QPointF :=
  ⟨t.m11 * p.x + t.dx, t.m22 * p.y + t.dy⟩

/-- QTransform.mapRect for a scale-plus-translate transform (the TxScale
path of the Qt source): scale the corner and the size, then restore a
nonnegative size if a scale factor was negative. -/
def ScaleTranslate.mapRect (t : ScaleTranslate) (r : QRectF) : QRectF :=
  let x := t.m11 * r.x + t.dx
  let y := t.m22 * r.y + t.dy
  let w := t.m11 * r.w
  let h := t.m22 * r.h
  let xw := if w < 0 then (x + w, -w) else (x, w)
  let yh := if h < 0 then (y + h, -h) else (y, h)
  ⟨xw.1, yh.1, xw.2, yh.2⟩

/-- `ColorPickerControlState` enum of the color picker. -/
inductive ColorPickerControlState where
  | noneCtl
  | expand
  | centerCtl
  | border
deriving DecidableEq, Repr

/-- State of a `ColorPickerPlugin`: Qt item visibility, the control state,
the selection rectangle `_scene_rect` (image-pixel scene coordinates), the
item position set by `_update_position`, plus the environment the plugin
reads through its base class: the view transform pushed by the host, the
image bounding rect in world scene coordinates, and the shortcut table of
the scene. -/
structure ColorPickerPlugin where
  visible : Bool
  control_state : ColorPickerControlState
  scene_rect : QRect
  pos : QPointF
  transform : ScaleTranslate
  image_world_rect : QRectF
  shortcuts : LIVKeyShortcuts
deriving DecidableEq, Repr

/-- `map_to_screenspace` of the base plugin on a point: apply the stored
transform. -/
def ColorPickerPlugin.map_to_screenspace (st : ColorPickerPlugin) (p : QPointF) : QPointF :=
  st.transform.mapPoint p

/-- `image_scene_rect` of the base plugin: the image bounding rect mapped
to screenspace. -/
def ColorPickerPlugin.image_scene_rect (st : ColorPickerPlugin) : QRectF :=
  st.transform.mapRect st.image_world_rect

/-- `ColorPickerPlugin._is_point_inside_image(point)`. -/
def ColorPickerPlugin.is_point_inside_image (st : ColorPickerPlugin) (p : QPointF) : Bool :=
  st.image_scene_rect.containsPoint (st.map_to_screenspace p)

/-- `ColorPickerPlugin._update_position`: place the item at the center of
the selection rectangle (converted to QRectF). -/
def ColorPickerPlugin.update_position (st : ColorPickerPlugin) : ColorPickerPlugin :=
  { st with pos := st.scene_rect.toRectF.center }

/-- `ColorPickerPlugin.__init__` (after scene attachment supplies the image
rect and the shortcut table, and with the identity transform the base class
starts from): control state none, selection rect QRect(0, 0, 10, 10),
position updated, then `hide()`. -/
def ColorPickerPlugin.mkInit (img : QRectF) (sc : LIVKeyShortcuts) : ColorPickerPlugin :=
  let st : ColorPickerPlugin :=
    { visible := true
      control_state := .noneCtl
      scene_rect := QRect.mkXYWH 0 0 10 10
      pos := ⟨0, 0⟩
      transform := ⟨1, 1, 0, 0⟩
      image_world_rect := img
      shortcuts := sc }
  let st := st.update_position
  { st with visible := false }

/-- The guard of the pick-start branch of `set_visibility_from_scene_event`:
a scene mouse press matching the `pick` or `pick_area_start` shortcut,
inside the image. -/
def ColorPickerPlugin.pickStartGuard (st : ColorPickerPlugin) (e : QEvent) : Bool :=
  decide (e.etype = .GraphicsSceneMousePress)
    && (st.shortcuts.pick.match_event e none || st.shortcuts.pick_area_start.match_event e none)
    && st.is_point_inside_image e.scenePos

/-- The guard of the expand branch of `set_visibility_from_scene_event`:
a scene mouse move matching the `pick_area_expand` shortcut, inside the
image. -/
def ColorPickerPlugin.expandGuard (st : ColorPickerPlugin) (e : QEvent) : Bool :=
  decide (e.etype = .GraphicsSceneMouseMove)
    && st.shortcuts.pick_area_expand.match_event e none
    && st.is_point_inside_image e.scenePos

/-- The guard of the unpick branch of `set_visibility_from_scene_event`. -/
def ColorPickerPlugin.unpickGuard (st : ColorPickerPlugin) (e : QEvent) : Bool :=
  decide (e.etype = .GraphicsSceneMousePress)
    && st.shortcuts.unpick.match_event e none

/-- `ColorPickerPlugin.set_visibility_from_scene_event(event)`: ignore
non-scene-mouse events; on a matching pick-start press inside the image,
show the item and reset the selection to a 1x1 rect whose top-left is the
truncated event position; on a matching expand move inside the image, move
the bottom-right corner to the truncated event position and enter the
expand control state; on a matching unpick press, hide the item.  The
`picked_color_changed` signal emissions carry no state. -/
def ColorPickerPlugin.set_visibility_from_scene_event
    (st : ColorPickerPlugin) (e : QEvent) : ColorPickerPlugin :=
  match e.payload with
  | .sceneMouseEvent _ =>
    if st.pickStartGuard e then
      let event_pos := pointf_to_point e.scenePos
      let st := { st with visible := true }
      let st := { st with scene_rect := (st.scene_rect.setTopLeft event_pos).setSize 1 1 }
      st.update_position
    else if st.expandGuard e then
      let event_pos := pointf_to_point e.scenePos
      let st := { st with scene_rect := st.scene_rect.setBottomRight event_pos }
      let st := st.update_position
      { st with control_state := .expand }
    else if st.unpickGuard e then
      { st with visible := false }
    else st
  | _ => st

/-- `ColorPickerPlugin.get_picked_area()`: the normalized selection rect. -/
def ColorPickerPlugin.get_picked_area (st : ColorPickerPlugin) : QRect :=
  st.scene_rect.normalized

/-- `LqtImageViewport.get_color_picked_area()`: None while the color picker
item is not visible, its picked area otherwise. -/
def get_color_picked_area (st : ColorPickerPlugin) : Option QRect :=
  if st.visible = false then none
  else some st.get_picked_area

/-! Concrete instances used by witnesses and counterexamples. -/

/-- Modelled from the spec: Python `round(value, precision)` rounding to a
fixed number of decimal places (the source has no such call).  Python
rounds half to even and Mathlib `round` rounds half up; only the shape
`integer / 10 ^ precision`, shared by every decimal rounding, matters in
the proofs below. -/
def roundDec (x : ℚ) (p : ℕ) : ℚ := (round (x * 10 ^ p) : ℤ) / 10 ^ p

/-- A steady-state `LIVGraphicView` at zoom 1 with an 800x600 viewport,
right after `_update_scene_rect` ran. -/
def navSt0 : NavView :=
  ⟨true, 1, 1, ⟨0, 0, 800 - 1/2, 600 - 1/2⟩, 800, 600, ⟨0, 0⟩,
    GraphicViewState.noneState, none, none⟩

/-- The color picker as constructed, attached to a scene showing a 100x50
image anchored at the origin, with the default shortcuts, at identity view
transform (zoom 1). -/
def cpInit : ColorPickerPlugin :=
  ColorPickerPlugin.mkInit ⟨0, 0, 100, 50⟩ LIVKeyShortcuts.get_default

/-- A pick-start press: left button with Control held, at scene position
(10, 10). -/
def cpPressEvent : QEvent :=
  ⟨.GraphicsSceneMousePress, .sceneMouseEvent LeftButton, ControlModifier, ⟨10, 10⟩⟩

/-- An expand-chord move one pixel up and left of the press: no button,
Control and Shift held, at scene position (9.5, 9.5), truncating to pixel
(9, 9). -/
def cpMoveUpLeftEvent : QEvent :=
  ⟨.GraphicsSceneMouseMove, .sceneMouseEvent NoButton,
    ControlModifier ||| ShiftModifier, ⟨19/2, 19/2⟩⟩

/-- An expand-chord move down and right of the press, at scene position
(20.5, 30.5), truncating to pixel (20, 30). -/
def cpMoveDownRightEvent : QEvent :=
  ⟨.GraphicsSceneMouseMove, .sceneMouseEvent NoButton,
    ControlModifier ||| ShiftModifier, ⟨41/2, 61/2⟩⟩

/-- The color picker state after the pick-start press. -/
def cpAfterPress : ColorPickerPlugin :=
  cpInit.set_visibility_from_scene_event cpPressEvent

/-- The color picker state after the press and the up-left expand move. -/
def cpAfterUpLeft : ColorPickerPlugin :=
  cpAfterPress.set_visibility_from_scene_event cpMoveUpLeftEvent

/-- A binding listing both a real modifier and the zero NoModifier flag
under contains-any matching. -/
def anyWithZeroShortcut : LIVKeyShortcut :=
  ⟨.mouseButton LeftButton, some [AltModifier, NoModifier], .contains_any⟩

/-- A left-button press with Alt held. -/
def altLeftPressEvent : QEvent :=
  ⟨.MouseButtonPress, .mouseEvent LeftButton, AltModifier, ⟨0, 0⟩⟩

/-- A binding listing both a real modifier and the zero NoModifier flag
under contains-all matching. -/
def allWithZeroShortcut : LIVKeyShortcut :=
  ⟨.mouseButton LeftButton, some [AltModifier, NoModifier], .contains_all⟩

/-- A binding listing only the zero NoModifier flag under contains-any
matching. -/
def onlyZeroAnyShortcut : LIVKeyShortcut :=
  ⟨.mouseButton LeftButton, some [NoModifier], .contains_any⟩

/-- A viewport holding a 50x100 image at rotation angle 0. -/
def vpImage0 : LqtImageViewport := ⟨0, some (50, 100)⟩

/-- A steady-state view consistency predicate: zoom enabled, the transform
applied to the view equals the stored zoom, and the scene rect has the
dimensions `_update_scene_rect` gives it.  This holds after construction
followed by any resize, and is preserved by every accepted zoom. -/
def viewConsistent (st : NavView) : Prop :=
  st.zoom_enable = true ∧ st.tzoom = st.zoom ∧
    st.sceneRect.w = st.vpW / st.zoom - 1/2 ∧ st.sceneRect.h = st.vpH / st.zoom - 1/2

/-! Helper lemmas. -/

lemma pan_viewport_zoom (x y : ℚ) (st : NavView) :
    (pan_viewport x y st).zoom = st.zoom := rfl

lemma update_scene_rect_zoom (st : NavView) :
    (update_scene_rect st).zoom = st.zoom := by
  cases h : st.zoom_enable <;> simp [update_scene_rect, h]

/-- The zoom stored by `_zoom_viewport` stays inside the clamping range. -/
lemma zoom_viewport_range (a : ℚ) (c : QPointF) (st : NavView)
    (h : zoomInRange st.zoom) : zoomInRange (zoom_viewport a c st).zoom := by
  unfold zoom_viewport
  by_cases he : st.zoom_enable = false
  · rw [if_pos he]
    exact h
  · rw [if_neg he]
    by_cases hk : st.zoom * a < zoom_min ∨ zoom_max < st.zoom * a
    · rw [if_pos hk]
      exact h
    · rw [if_neg hk]
      push_neg at hk
      simpa [zoomInRange, pan_viewport_zoom, update_scene_rect_zoom] using hk

/-- The zoom stored by an accepted `_zoom_viewport` call is exactly the
product of the old zoom and the amount. -/
lemma zoom_viewport_zoom_eq (st : NavView) (a : ℚ) (c : QPointF)
    (he : st.zoom_enable = true)
    (hk : ¬(st.zoom * a < zoom_min ∨ zoom_max < st.zoom * a)) :
    (zoom_viewport a c st).zoom = st.zoom * a := by
  unfold zoom_viewport
  rw [if_neg (by simp [he]), if_neg hk]
  simp [pan_viewport_zoom, update_scene_rect_zoom]

/-- One navigation operation preserves the zoom range invariant. -/
lemma applyNavOp_range (st : NavView) (op : NavOp)
    (h : zoomInRange st.zoom) : zoomInRange (applyNavOp st op).zoom := by
  cases op with
  | wheelZoom amount cursor => exact zoom_viewport_range amount cursor st h
  | dragZoom diff anchor => exact zoom_viewport_range _ anchor st h
  | resetZoom cursor => exact zoom_viewport_range _ cursor st h

/-- A whole sequence of navigation operations preserves the invariant. -/
lemma applyNavOps_range (ops : List NavOp) (st : NavView)
    (h : zoomInRange st.zoom) : zoomInRange (applyNavOps ops st).zoom := by
  induction ops generalizing st with
  | nil => exact h
  | cons op rest ih => exact ih (applyNavOp st op) (applyNavOp_range st op h)

/-- Claim C10: after any mouse-button release, regardless of which button
was released and which shortcut set the state, both the panning and the
zooming flags are cleared and the previous/initial mouse-position tracking
fields are reset to None. -/
theorem release_clears_pan_and_zoom (st : NavView) :
    (mouseReleaseEvent st).state.panFlag = false ∧
    (mouseReleaseEvent st).state.zoomFlag = false ∧
    (mouseReleaseEvent st).mousePrev = none ∧
    (mouseReleaseEvent st).mouseInit = none := by
  obtain ⟨ze, z, tz, r, w, h, o, ⟨nf, pf, zf, kf, uf⟩, mp, mi⟩ := st
  cases pf <;> cases zf <;>
    simp [mouseReleaseEvent, GraphicViewState.andF, GraphicViewState.xorF,
      GraphicViewState.isTruthy, GraphicViewState.panState, GraphicViewState.zoomState]

/-- Claim C6: `reset_pan` (the `_center_image` it dispatches to) moves the
scene rect so its center equals the center of the image bounding rect and
leaves the zoom unchanged; for a 100x50 image anchored at the origin the
new center is (50, 25). -/
theorem reset_pan_centers_on_image :
    (∀ (st : NavView) (iw ih : ℚ),
      (center_image ⟨0, 0, iw, ih⟩ st).sceneRect.center = ⟨iw / 2, ih / 2⟩ ∧
      (center_image ⟨0, 0, iw, ih⟩ st).zoom = st.zoom) ∧
    (∀ st : NavView,
      (center_image ⟨0, 0, 100, 50⟩ st).sceneRect.center = ⟨50, 25⟩) := by
  constructor
  · intro st iw ih
    constructor
    · simp [center_image, QRectF.moveCenter, QRectF.center]
    · rfl
  · intro st
    simp [center_image, QRectF.moveCenter, QRectF.center]
    norm_num

/-- Claim C8: the background texture is drawn exactly when the style
enables textures and the current zoom lies within the configured
zoom-visibility range, an absent bound imposing no constraint. -/
theorem texture_drawn_iff_enabled_and_in_range
    (s : BaseBackgroundStyle) (z : ℚ) :
    s.should_use_background_texture (some z) = true ↔
      (s.use_background_texture = true ∧
        (∀ m, s.texture_zoom_range.1 = some m → m ≤ z) ∧
        (∀ m, s.texture_zoom_range.2 = some m → z ≤ m)) := by
  obtain ⟨label, useTex, ⟨mn, mx⟩⟩ := s
  cases useTex <;> rcases mn with _ | m1 <;> rcases mx with _ | m2 <;>
    simp [BaseBackgroundStyle.should_use_background_texture]
  all_goals tauto

/-- Claim C4: `rotate_image_90` fails exactly when the angle is not a
multiple of 90, failure leaves the stored rotation angle untouched, and
with an image loaded two additive +90 calls from a baseline angle of 0
return 90 then 180. -/
theorem rotate_90_validation :
    (∀ (angle : ℤ) (add : Bool) (st : LqtImageViewport),
      (rotate_image_90 angle add st).2.isOk = false ↔ angle % 90 ≠ 0) ∧
    (∀ (angle : ℤ) (add : Bool) (st : LqtImageViewport), angle % 90 ≠ 0 →
      (rotate_image_90 angle add st).1 = st) ∧
    (∀ (st : LqtImageViewport) (a : ImgShape),
      st.rotation_angle = 0 → st.image_array = some a →
      (rotate_image_90 90 true st).2 = .ok (some 90) ∧
      (rotate_image_90 90 true (rotate_image_90 90 true st).1).2 = .ok (some 180)) := by
  refine ⟨?_, ?_, ?_⟩
  · intro angle add st
    by_cases hm : angle % 90 = 0
    · simp only [rotate_image_90, hm]
      cases h : (if add = true then { st with rotation_angle := st.rotation_angle + angle }
          else { st with rotation_angle := angle }).image_array
      all_goals simp [h, hm, Except.isOk, Except.toBool]
    · simp [rotate_image_90, hm, Except.isOk, Except.toBool]
  · intro angle add st hm
    simp [rotate_image_90, hm]
  · intro st a h0 ha
    obtain ⟨rot, img⟩ := st
    simp only at h0 ha
    subst h0 ha
    constructor
    · simp [rotate_image_90, set_image_from_array]
    · simp [rotate_image_90, set_image_from_array]

/-- Witness for C4 at a concrete viewport: the two-call scenario succeeds
and a 45-degree request is rejected without touching the state. -/
theorem rotate_90_validation_witness :
    ((45 : ℤ) % 90 ≠ 0 ∧ vpImage0.rotation_angle = 0 ∧ vpImage0.image_array = some (50, 100)) ∧
    ((rotate_image_90 90 true (rotate_image_90 90 true vpImage0).1).2 = .ok (some 180) ∧
      (rotate_image_90 45 true vpImage0).1 = vpImage0) := by
  refine ⟨⟨by decide, rfl, rfl⟩, ?_, ?_⟩
  · exact (rotate_90_validation.2.2 vpImage0 (50, 100) rfl rfl).2
  · exact rotate_90_validation.2.1 45 true vpImage0 (by decide)

/-- Claim C1: starting from zoom 1, every sequence of zoom operations
(wheel, drag-zoom, reset-zoom) keeps the zoom factor inside
[zoom_min, zoom_max]; a zoom request whose product falls outside the range
is a total no-op that returns the state unchanged (zoom and scene rect
included) and raises no error. -/
theorem zoom_sequences_stay_clamped :
    (∀ (st : NavView) (ops : List NavOp), st.zoom = 1 →
      zoom_min ≤ (applyNavOps ops st).zoom ∧ (applyNavOps ops st).zoom ≤ zoom_max) ∧
    (∀ (st : NavView) (amount : ℚ) (cursor : QPointF),
      st.zoom * amount < zoom_min ∨ zoom_max < st.zoom * amount →
      zoom_viewport amount cursor st = st) := by
  constructor
  · intro st ops h1
    refine applyNavOps_range ops st ?_
    rw [h1]
    constructor <;> norm_num [zoom_min, zoom_max]
  · intro st amount cursor h
    unfold zoom_viewport
    by_cases he : st.zoom_enable = false
    · rw [if_pos he]
    · rw [if_neg he, if_pos h]

/-- Witness for C1: a wheel zoom followed by a reset keeps the zoom in
range, and a requested amount of 100 from zoom 1 is rejected leaving the
state untouched. -/
theorem zoom_sequences_stay_clamped_witness :
    (navSt0.zoom = 1 ∧
      zoom_min ≤ (applyNavOps [.wheelZoom 2 ⟨5, 7⟩, .resetZoom ⟨0, 0⟩] navSt0).zoom ∧
      (applyNavOps [.wheelZoom 2 ⟨5, 7⟩, .resetZoom ⟨0, 0⟩] navSt0).zoom ≤ zoom_max) ∧
    (zoom_max < navSt0.zoom * 100 ∧
      zoom_viewport 100 ⟨0, 0⟩ navSt0 = navSt0) := by
  refine ⟨⟨rfl, zoom_sequences_stay_clamped.1 navSt0 _ rfl⟩, ?_, ?_⟩
  · norm_num [navSt0, zoom_max]
  · exact zoom_sequences_stay_clamped.2 navSt0 100 ⟨0, 0⟩
      (Or.inr (by norm_num [navSt0, zoom_max]))

/-- Amended claim C2: an accepted call to `_zoom_viewport` stores exactly
`current_zoom * amount`, with no rounding of any kind applied. -/
theorem zoom_stored_exact_product (st : NavView) (a : ℚ) (c : QPointF)
    (he : st.zoom_enable = true)
    (hk : ¬(st.zoom * a < zoom_min ∨ zoom_max < st.zoom * a)) :
    (zoom_viewport a c st).zoom = st.zoom * a :=
  zoom_viewport_zoom_eq st a c he hk

/-- Witness for the amended C2 at zoom 1, amount 2. -/
theorem zoom_stored_exact_product_witness :
    (navSt0.zoom_enable = true ∧
      ¬(navSt0.zoom * 2 < zoom_min ∨ zoom_max < navSt0.zoom * 2)) ∧
    (zoom_viewport 2 ⟨5, 7⟩ navSt0).zoom = navSt0.zoom * 2 := by
  refine ⟨⟨rfl, ?_⟩, zoom_stored_exact_product navSt0 2 ⟨5, 7⟩ rfl ?_⟩ <;>
    norm_num [navSt0, zoom_min, zoom_max]

/-- Counterexample to C2 as stated: zooming by 1/3 from zoom 1 stores
exactly 1/3, which is not `round(current_zoom * amount, p)` for any
decimal precision p, since no decimal fraction equals 1/3. -/
theorem zoom_rounding_counterexample :
    (zoom_viewport (1/3) ⟨0, 0⟩ navSt0).zoom = 1/3 ∧
    ¬ ∃ p : ℕ, (zoom_viewport (1/3) ⟨0, 0⟩ navSt0).zoom = roundDec (navSt0.zoom * (1/3)) p := by
  have hz : (zoom_viewport (1/3) ⟨0, 0⟩ navSt0).zoom = 1/3 := by
    rw [zoom_viewport_zoom_eq navSt0 (1/3) ⟨0, 0⟩ rfl
      (by norm_num [navSt0, zoom_min, zoom_max])]
    norm_num [navSt0]
  refine ⟨hz, ?_⟩
  rintro ⟨p, hp⟩
  rw [hz] at hp
  simp only [roundDec, navSt0, one_mul] at hp
  have hden : ((10 : ℚ) ^ p) ≠ 0 := by positivity
  obtain ⟨k, hk⟩ : ∃ k : ℤ, (1/3 : ℚ) = (k : ℚ) / 10 ^ p := ⟨_, hp⟩
  have h10 : (1 : ℚ) * 10 ^ p = (k : ℚ) * 3 := (div_eq_div_iff (by norm_num) hden).mp hk
  rw [one_mul] at h10
  have h3int : (10 : ℤ) ^ p = k * 3 := by exact_mod_cast h10
  have hdvd : (3 : ℤ) ∣ 10 ^ p := ⟨k, by linarith⟩
  have hdvd10 : (3 : ℤ) ∣ 10 := Int.prime_three.dvd_of_dvd_pow hdvd
  norm_num at hdvd10

/-- Claim C3: for an event carrying the binding primary input, a None
modifier set matches any modifier state; an empty tuple under exact mode
matches exactly the events with no active modifier; and exact mode in
general requires the active modifier set to equal the bitwise union of the
listed modifiers. -/
theorem shortcut_modifier_matching (s : LIVKeyShortcut) (e : QEvent)
    (hcode : eventCode e = some s.key) :
    (s.modifiers = none → s.match_event e none = true) ∧
    (s.modifiers = some [] → s.modifier_matching = .exact →
      (s.match_event e none = true ↔ e.modifiers = NoModifier)) ∧
    (∀ l, s.modifiers = some l → s.modifier_matching = .exact →
      (s.match_event e none = true ↔
        e.modifiers = l.foldl (fun acc m => acc ||| m) NoModifier)) := by
  refine ⟨?_, ?_, ?_⟩
  · intro hn
    simp [LIVKeyShortcut.match_event, hcode, hn]
  · intro hs hex
    by_cases hm : e.modifiers = NoModifier <;>
      simp [LIVKeyShortcut.match_event, hcode, hs, hex, hm]
  · intro l hs hex
    by_cases hm : e.modifiers = l.foldl (fun acc m => acc ||| m) NoModifier <;>
      simp [LIVKeyShortcut.match_event, hcode, hs, hex, hm]

/-- Witness for C3 with the default `pick` binding (left button, Control,
exact) against a Control-left press. -/
theorem shortcut_modifier_matching_witness :
    eventCode cpPressEvent = some LIVKeyShortcuts.get_default.pick.key ∧
    (LIVKeyShortcuts.get_default.pick.match_event cpPressEvent none = true ↔
      cpPressEvent.modifiers = [ControlModifier].foldl (fun acc m => acc ||| m) NoModifier) := by
  refine ⟨rfl, ?_⟩
  exact (shortcut_modifier_matching LIVKeyShortcuts.get_default.pick cpPressEvent rfl).2.2
    [ControlModifier] rfl rfl

/-- Amended claim C9: a binding listing the zero NoModifier flag never
matches under contains-all (the bitwise AND with zero is zero, so the
required conjunction fails); under contains-any a NoModifier entry can
never contribute, so a binding whose listed modifiers are all NoModifier
never matches, while one that also lists a nonzero modifier still can. -/
theorem zero_flag_contains_matching (s : LIVKeyShortcut) (e : QEvent) :
    (∀ l, s.modifiers = some l → s.modifier_matching = .contains_all →
      NoModifier ∈ l → s.match_event e none = false) ∧
    (∀ l, s.modifiers = some l → s.modifier_matching = .contains_any →
      (∀ m ∈ l, m = NoModifier) → s.match_event e none = false) := by
  constructor
  · intro l hl hall hmem
    unfold LIVKeyShortcut.match_event
    cases heq : eventCode e with
    | none => rfl
    | some code =>
      have hallP : (l.all fun m => !(decide (e.modifiers &&& m = 0))) = false := by
        cases hb : l.all fun m => !(decide (e.modifiers &&& m = 0))
        · rfl
        · exfalso
          have hmm := List.all_eq_true.mp hb NoModifier hmem
          simp [NoModifier] at hmm
      simp [hl, hall, hallP]
  · intro l hl hany hmem
    unfold LIVKeyShortcut.match_event
    cases heq : eventCode e with
    | none => rfl
    | some code =>
      have hanyP : (l.any fun m => !(decide (e.modifiers &&& m = 0))) = false := by
        cases hb : l.any fun m => !(decide (e.modifiers &&& m = 0))
        · rfl
        · exfalso
          obtain ⟨m, hm, hPm⟩ := List.any_eq_true.mp hb
          rw [hmem m hm] at hPm
          simp [NoModifier] at hPm
      simp [hl, hany, hanyP]

/-- Witness for the amended C9: concrete bindings listing NoModifier fail
to match an Alt-left press under contains-all and under all-zero
contains-any. -/
theorem zero_flag_contains_matching_witness :
    (allWithZeroShortcut.modifiers = some [AltModifier, NoModifier] ∧
      allWithZeroShortcut.match_event altLeftPressEvent none = false) ∧
    (onlyZeroAnyShortcut.modifiers = some [NoModifier] ∧
      onlyZeroAnyShortcut.match_event altLeftPressEvent none = false) := by
  refine ⟨⟨rfl, ?_⟩, ⟨rfl, ?_⟩⟩
  · exact (zero_flag_contains_matching allWithZeroShortcut altLeftPressEvent).1
      [AltModifier, NoModifier] rfl rfl (by simp)
  · exact (zero_flag_contains_matching onlyZeroAnyShortcut altLeftPressEvent).2
      [NoModifier] rfl rfl (by simp)

/-- Counterexample to C9 as stated: a contains-any binding listing
(AltModifier, NoModifier) does match an Alt-left press, so such a binding
is not unconditionally unmatched. -/
theorem zero_flag_contains_any_counterexample :
    anyWithZeroShortcut.modifier_matching = .contains_any ∧
    NoModifier ∈ [AltModifier, NoModifier] ∧
    anyWithZeroShortcut.modifiers = some [AltModifier, NoModifier] ∧
    anyWithZeroShortcut.match_event altLeftPressEvent none = true := by
  refine ⟨rfl, by simp, rfl, by decide⟩

/-- Closed form of an accepted `_zoom_viewport` call on a steady-state
view: the zoom and the view transform become `zoom * amount`, the scene
rect is resized to the new steady dimensions and shifted so that the world
point under the anchor stays fixed. -/
lemma zoom_viewport_accepted (a : ℚ) (c : QPointF) (st : NavView)
    (he : st.zoom_enable = true)
    (ht : st.tzoom = st.zoom)
    (hw : st.sceneRect.w = st.vpW / st.zoom - 1/2)
    (hh : st.sceneRect.h = st.vpH / st.zoom - 1/2)
    (hk : ¬(st.zoom * a < zoom_min ∨ zoom_max < st.zoom * a)) :
    zoom_viewport a c st =
      { st with
        zoom := st.zoom * a
        tzoom := st.zoom * a
        sceneRect :=
          ⟨st.sceneRect.x + (c.x - st.viewOrigin.x) / st.zoom
              - (c.x - st.viewOrigin.x) / (st.zoom * a),
            st.sceneRect.y + (c.y - st.viewOrigin.y) / st.zoom
              - (c.y - st.viewOrigin.y) / (st.zoom * a),
            st.vpW / (st.zoom * a) - 1/2,
            st.vpH / (st.zoom * a) - 1/2⟩ } := by
  obtain ⟨ze, z, tz, ⟨rx, ry, rww, rhh⟩, vw, vh, ⟨ox, oy⟩, fl, mp, mi⟩ := st
  simp only at he ht hw hh hk
  subst he ht hw hh
  unfold zoom_viewport
  rw [if_neg (by simp), if_neg hk]
  unfold update_scene_rect pan_viewport mapToScene mapFromGlobal
  unfold QRectF.adjusted QRectF.setWidth QRectF.setHeight
  simp only [NavView.mk.injEq, QRectF.mk.injEq, if_true, and_true, true_and]
  norm_num
  refine ⟨by ring, by ring⟩

/-- Claim C7: on a steady-state view, zooming by `a` and then by `1/a` at
the same anchor restores the original scene rect and zoom exactly (hence
within any floating tolerance), provided both steps stay inside
[zoom_min, zoom_max]. -/
theorem zoom_then_inverse_restores (st : NavView) (a : ℚ) (c : QPointF)
    (hcons : viewConsistent st)
    (hz : zoomInRange st.zoom)
    (hza : zoomInRange (st.zoom * a)) :
    (zoom_viewport (1/a) c (zoom_viewport a c st)).sceneRect = st.sceneRect ∧
    (zoom_viewport (1/a) c (zoom_viewport a c st)).zoom = st.zoom := by
  obtain ⟨he, ht, hw, hh⟩ := hcons
  have hzpos : 0 < st.zoom := lt_of_lt_of_le (by norm_num [zoom_min]) hz.1
  have hzapos : 0 < st.zoom * a := lt_of_lt_of_le (by norm_num [zoom_min]) hza.1
  have hane : a ≠ 0 := by
    rintro rfl
    rw [mul_zero] at hzapos
    exact lt_irrefl 0 hzapos
  have key : st.zoom * a * (1/a) = st.zoom := by field_simp
  have hk1 : ¬(st.zoom * a < zoom_min ∨ zoom_max < st.zoom * a) := by
    push_neg
    exact hza
  have hk2 : ¬(st.zoom * a * (1/a) < zoom_min ∨ zoom_max < st.zoom * a * (1/a)) := by
    rw [key]
    push_neg
    exact hz
  obtain ⟨ze, z, tz, ⟨rx, ry, rww, rhh⟩, vw, vh, ⟨ox, oy⟩, fl, mp, mi⟩ := st
  simp only at he ht hw hh hk1 hk2 key hzpos
  subst he ht hw hh
  rw [zoom_viewport_accepted a c _ rfl rfl rfl rfl hk1]
  rw [zoom_viewport_accepted (1/a) c _ rfl rfl rfl rfl hk2]
  simp only [QRectF.mk.injEq]
  rw [key]
  refine ⟨⟨by ring, by ring, rfl, rfl⟩, rfl⟩

/-- Witness for C7 at zoom 1 with amount 2 on a steady 800x600 view. -/
theorem zoom_then_inverse_restores_witness :
    (viewConsistent navSt0 ∧ zoomInRange navSt0.zoom ∧ zoomInRange (navSt0.zoom * 2)) ∧
    ((zoom_viewport (1/2) ⟨5, 7⟩ (zoom_viewport 2 ⟨5, 7⟩ navSt0)).sceneRect = navSt0.sceneRect ∧
      (zoom_viewport (1/2) ⟨5, 7⟩ (zoom_viewport 2 ⟨5, 7⟩ navSt0)).zoom = navSt0.zoom) := by
  have h1 : viewConsistent navSt0 := by
    refine ⟨rfl, rfl, ?_, ?_⟩ <;> norm_num [navSt0]
  have h2 : zoomInRange navSt0.zoom := by
    constructor <;> norm_num [navSt0, zoom_min, zoom_max]
  have h3 : zoomInRange (navSt0.zoom * 2) := by
    constructor <;> norm_num [navSt0, zoom_min, zoom_max]
  exact ⟨⟨h1, h2, h3⟩, zoom_then_inverse_restores navSt0 2 ⟨5, 7⟩ h1 h2 h3⟩

/-- A rectangle whose stored width and height are not negative is left
unchanged by normalization. -/
lemma normalized_eq_self (r : QRect) (hx : ¬(r.x2 < r.x1 - 1)) (hy : ¬(r.y2 < r.y1 - 1)) :
    r.normalized = r := by
  unfold QRect.normalized
  simp only [if_neg hx, if_neg hy]

/-- Qt normalization always yields nonnegative width and height. -/
lemma normalized_size_nonneg (r : QRect) :
    0 ≤ r.normalized.width ∧ 0 ≤ r.normalized.height := by
  unfold QRect.normalized QRect.width QRect.height
  constructor <;> split_ifs <;> dsimp only <;> omega

/-- After Qt normalization the left edge is at most the right edge exactly
when the stored width was not zero (`x2 = x1 - 1`). -/
lemma normalized_x_le_iff (r : QRect) :
    r.normalized.x1 ≤ r.normalized.x2 ↔ r.x2 ≠ r.x1 - 1 := by
  unfold QRect.normalized
  split_ifs <;> dsimp only <;> omega

/-- After Qt normalization the top edge is at most the bottom edge exactly
when the stored height was not zero (`y2 = y1 - 1`). -/
lemma normalized_y_le_iff (r : QRect) :
    r.normalized.y1 ≤ r.normalized.y2 ↔ r.y2 ≠ r.y1 - 1 := by
  unfold QRect.normalized
  split_ifs <;> dsimp only <;> omega

/-- Closed form of the pick-start branch of
`set_visibility_from_scene_event`: the item is shown and the selection
becomes the 1x1 rectangle at the truncated event position. -/
lemma set_event_pick_start (st : ColorPickerPlugin) (e : QEvent) (b : ℕ)
    (hp : e.payload = .sceneMouseEvent b) (hg : st.pickStartGuard e = true) :
    st.set_visibility_from_scene_event e =
      { st with
        visible := true
        scene_rect := ⟨(pointf_to_point e.scenePos).x, (pointf_to_point e.scenePos).y,
          (pointf_to_point e.scenePos).x, (pointf_to_point e.scenePos).y⟩
        pos := QRectF.center (QRect.toRectF ⟨(pointf_to_point e.scenePos).x,
          (pointf_to_point e.scenePos).y, (pointf_to_point e.scenePos).x,
          (pointf_to_point e.scenePos).y⟩) } := by
  unfold ColorPickerPlugin.set_visibility_from_scene_event
  rw [hp]
  simp only [hg, if_true]
  unfold ColorPickerPlugin.update_position QRect.setTopLeft QRect.setSize
  simp only [NavView.mk.injEq, ColorPickerPlugin.mk.injEq, QRect.mk.injEq]
  norm_num

/-- Closed form of the expand branch of `set_visibility_from_scene_event`:
the bottom-right corner of the selection moves to the truncated event
position and the control state becomes expand. -/
lemma set_event_expand (st : ColorPickerPlugin) (e : QEvent) (b : ℕ)
    (hp : e.payload = .sceneMouseEvent b) (hg : st.expandGuard e = true) :
    st.set_visibility_from_scene_event e =
      { st with
        scene_rect := ⟨st.scene_rect.x1, st.scene_rect.y1,
          (pointf_to_point e.scenePos).x, (pointf_to_point e.scenePos).y⟩
        pos := QRectF.center (QRect.toRectF ⟨st.scene_rect.x1, st.scene_rect.y1,
          (pointf_to_point e.scenePos).x, (pointf_to_point e.scenePos).y⟩)
        control_state := .expand } := by
  have hmove : e.etype = .GraphicsSceneMouseMove := by
    unfold ColorPickerPlugin.expandGuard at hg
    simp only [Bool.and_eq_true, decide_eq_true_eq] at hg
    exact hg.1.1
  have hnps : st.pickStartGuard e = false := by
    unfold ColorPickerPlugin.pickStartGuard
    rw [hmove]
    simp
  unfold ColorPickerPlugin.set_visibility_from_scene_event
  rw [hp]
  simp only [hnps, hg, if_true, if_false, Bool.false_eq_true]
  unfold ColorPickerPlugin.update_position QRect.setBottomRight
  rfl

/-- Amended claim C5: the color-picker overlay is hidden right after
construction and `get_picked_region` is None whenever it is not visible; a
pick-start press inside the image shows it and the picked region is the
1x1 rectangle at the truncated click position; a subsequent expand-chord
move inside the image moves the other corner to the new pixel, and the
returned rectangle is Qt-normalized: its width and height are nonnegative
for every drag direction, and its top-left is at most its bottom-right
except when the drag lands exactly one pixel left of (or one pixel above)
the press, where the empty selection keeps a bottom-right one less than
the top-left on that axis. -/
theorem colorpicker_pick_region :
    (∀ (img : QRectF) (sc : LIVKeyShortcuts),
      (ColorPickerPlugin.mkInit img sc).visible = false) ∧
    (∀ st : ColorPickerPlugin, st.visible = false → get_color_picked_area st = none) ∧
    (∀ (st : ColorPickerPlugin) (e : QEvent) (b : ℕ),
      e.payload = .sceneMouseEvent b → st.pickStartGuard e = true →
      (st.set_visibility_from_scene_event e).visible = true ∧
      get_color_picked_area (st.set_visibility_from_scene_event e) =
        some ⟨(pointf_to_point e.scenePos).x, (pointf_to_point e.scenePos).y,
          (pointf_to_point e.scenePos).x, (pointf_to_point e.scenePos).y⟩ ∧
      (st.set_visibility_from_scene_event e).get_picked_area.width = 1 ∧
      (st.set_visibility_from_scene_event e).get_picked_area.height = 1) ∧
    (∀ (st : ColorPickerPlugin) (ep em : QEvent) (bp bm : ℕ),
      ep.payload = .sceneMouseEvent bp → st.pickStartGuard ep = true →
      em.payload = .sceneMouseEvent bm →
      (st.set_visibility_from_scene_event ep).expandGuard em = true →
      ((st.set_visibility_from_scene_event ep).set_visibility_from_scene_event em).scene_rect =
        ⟨(pointf_to_point ep.scenePos).x, (pointf_to_point ep.scenePos).y,
          (pointf_to_point em.scenePos).x, (pointf_to_point em.scenePos).y⟩ ∧
      get_color_picked_area
          ((st.set_visibility_from_scene_event ep).set_visibility_from_scene_event em) =
        some (QRect.normalized ⟨(pointf_to_point ep.scenePos).x, (pointf_to_point ep.scenePos).y,
          (pointf_to_point em.scenePos).x, (pointf_to_point em.scenePos).y⟩) ∧
      0 ≤ (QRect.normalized ⟨(pointf_to_point ep.scenePos).x, (pointf_to_point ep.scenePos).y,
          (pointf_to_point em.scenePos).x, (pointf_to_point em.scenePos).y⟩).width ∧
      0 ≤ (QRect.normalized ⟨(pointf_to_point ep.scenePos).x, (pointf_to_point ep.scenePos).y,
          (pointf_to_point em.scenePos).x, (pointf_to_point em.scenePos).y⟩).height ∧
      (((QRect.normalized ⟨(pointf_to_point ep.scenePos).x, (pointf_to_point ep.scenePos).y,
            (pointf_to_point em.scenePos).x, (pointf_to_point em.scenePos).y⟩).x1 ≤
          (QRect.normalized ⟨(pointf_to_point ep.scenePos).x, (pointf_to_point ep.scenePos).y,
            (pointf_to_point em.scenePos).x, (pointf_to_point em.scenePos).y⟩).x2 ∧
        (QRect.normalized ⟨(pointf_to_point ep.scenePos).x, (pointf_to_point ep.scenePos).y,
            (pointf_to_point em.scenePos).x, (pointf_to_point em.scenePos).y⟩).y1 ≤
          (QRect.normalized ⟨(pointf_to_point ep.scenePos).x, (pointf_to_point ep.scenePos).y,
            (pointf_to_point em.scenePos).x, (pointf_to_point em.scenePos).y⟩).y2) ↔
        ((pointf_to_point em.scenePos).x ≠ (pointf_to_point ep.scenePos).x - 1 ∧
          (pointf_to_point em.scenePos).y ≠ (pointf_to_point ep.scenePos).y - 1))) := by
  refine ⟨?_, ?_, ?_, ?_⟩
  · intro img sc
    rfl
  · intro st h
    simp [get_color_picked_area, h]
  · intro st e b hp hg
    rw [set_event_pick_start st e b hp hg]
    refine ⟨rfl, ?_, ?_, ?_⟩
    · simp only [get_color_picked_area, ColorPickerPlugin.get_picked_area]
      rw [normalized_eq_self _ (by dsimp only; omega) (by dsimp only; omega)]
      rfl
    · simp only [ColorPickerPlugin.get_picked_area]
      rw [normalized_eq_self _ (by dsimp only; omega) (by dsimp only; omega)]
      unfold QRect.width
      dsimp only
      omega
    · simp only [ColorPickerPlugin.get_picked_area]
      rw [normalized_eq_self _ (by dsimp only; omega) (by dsimp only; omega)]
      unfold QRect.height
      dsimp only
      omega
  · intro st ep em bp bm hpp hgp hpm hgm
    rw [set_event_pick_start st ep bp hpp hgp] at hgm ⊢
    rw [set_event_expand _ em bm hpm hgm]
    refine ⟨rfl, rfl, (normalized_size_nonneg _).1, (normalized_size_nonneg _).2, ?_⟩
    exact and_congr (normalized_x_le_iff _) (normalized_y_le_iff _)

/-- Witness for the amended C5: press at (10, 10) with Control-left, then
expand to (20.5, 30.5) with the Control-Shift chord, on the freshly
constructed picker over a 100x50 image. -/
theorem colorpicker_pick_region_witness :
    (cpInit.visible = false ∧
      cpPressEvent.payload = .sceneMouseEvent LeftButton ∧
      cpInit.pickStartGuard cpPressEvent = true ∧
      cpMoveDownRightEvent.payload = .sceneMouseEvent NoButton ∧
      (cpInit.set_visibility_from_scene_event cpPressEvent).expandGuard
        cpMoveDownRightEvent = true) ∧
    (get_color_picked_area (cpInit.set_visibility_from_scene_event cpPressEvent) =
      some ⟨10, 10, 10, 10⟩) ∧
    (((cpInit.set_visibility_from_scene_event cpPressEvent).set_visibility_from_scene_event
        cpMoveDownRightEvent).scene_rect = ⟨10, 10, 20, 30⟩) := by
  have hp10 : pointf_to_point cpPressEvent.scenePos = (⟨10, 10⟩ : QPoint) := by
    norm_num [pointf_to_point, pyInt, cpPressEvent]
  have hq2030 : pointf_to_point cpMoveDownRightEvent.scenePos = (⟨20, 30⟩ : QPoint) := by
    norm_num [pointf_to_point, pyInt, cpMoveDownRightEvent]
  have hps : cpInit.pickStartGuard cpPressEvent = true := by
    norm_num [ColorPickerPlugin.pickStartGuard, cpInit, ColorPickerPlugin.mkInit,
      ColorPickerPlugin.update_position, LIVKeyShortcuts.get_default,
      LIVKeyShortcut.match_event, eventCode, cpPressEvent,
      ColorPickerPlugin.is_point_inside_image, ColorPickerPlugin.image_scene_rect,
      ColorPickerPlugin.map_to_screenspace, ScaleTranslate.mapRect,
      ScaleTranslate.mapPoint, QRectF.containsPoint, ControlModifier, ShiftModifier,
      AltModifier, NoModifier, LeftButton, NoButton]
  have h1 : cpInit.set_visibility_from_scene_event cpPressEvent =
      { cpInit with
        visible := true
        scene_rect := ⟨10, 10, 10, 10⟩
        pos := QRectF.center (QRect.toRectF ⟨10, 10, 10, 10⟩) } := by
    rw [set_event_pick_start cpInit cpPressEvent LeftButton rfl hps, hp10]
  have hem : (cpInit.set_visibility_from_scene_event cpPressEvent).expandGuard
      cpMoveDownRightEvent = true := by
    rw [h1]
    norm_num [ColorPickerPlugin.expandGuard, cpInit, ColorPickerPlugin.mkInit,
      ColorPickerPlugin.update_position, LIVKeyShortcuts.get_default,
      LIVKeyShortcut.match_event, eventCode, cpMoveDownRightEvent,
      ColorPickerPlugin.is_point_inside_image, ColorPickerPlugin.image_scene_rect,
      ColorPickerPlugin.map_to_screenspace, ScaleTranslate.mapRect,
      ScaleTranslate.mapPoint, QRectF.containsPoint, ControlModifier, ShiftModifier,
      AltModifier, NoModifier, LeftButton, NoButton]
    decide
  refine ⟨⟨colorpicker_pick_region.1 ⟨0, 0, 100, 50⟩ LIVKeyShortcuts.get_default, rfl, hps,
    rfl, hem⟩, ?_, ?_⟩
  · have h := (colorpicker_pick_region.2.2.1 cpInit cpPressEvent LeftButton rfl hps).2.1
    rw [h, hp10]
  · have h := (colorpicker_pick_region.2.2.2 cpInit cpPressEvent cpMoveDownRightEvent
      LeftButton NoButton rfl hps rfl hem).1
    rw [h, hp10, hq2030]

/-- Counterexample to C5 as stated: after a pick-start press at pixel
(10, 10) and an expand move truncating to pixel (9, 9) --- one pixel up and
left --- the returned region is the empty rectangle with top-left (10, 10)
and bottom-right (9, 9), whose top-left is not at most its bottom-right,
although Qt reports it normalized (nonnegative width and height). -/
theorem colorpicker_offbyone_counterexample :
    get_color_picked_area cpAfterUpLeft = some ⟨10, 10, 9, 9⟩ ∧
    ¬((10 : ℤ) ≤ 9 ∧ (10 : ℤ) ≤ 9) := by
  have hp10 : pointf_to_point cpPressEvent.scenePos = (⟨10, 10⟩ : QPoint) := by
    norm_num [pointf_to_point, pyInt, cpPressEvent]
  have hq99 : pointf_to_point cpMoveUpLeftEvent.scenePos = (⟨9, 9⟩ : QPoint) := by
    norm_num [pointf_to_point, pyInt, cpMoveUpLeftEvent]
  have hps : cpInit.pickStartGuard cpPressEvent = true := by
    norm_num [ColorPickerPlugin.pickStartGuard, cpInit, ColorPickerPlugin.mkInit,
      ColorPickerPlugin.update_position, LIVKeyShortcuts.get_default,
      LIVKeyShortcut.match_event, eventCode, cpPressEvent,
      ColorPickerPlugin.is_point_inside_image, ColorPickerPlugin.image_scene_rect,
      ColorPickerPlugin.map_to_screenspace, ScaleTranslate.mapRect,
      ScaleTranslate.mapPoint, QRectF.containsPoint, ControlModifier, ShiftModifier,
      AltModifier, NoModifier, LeftButton, NoButton]
  have h1 : cpInit.set_visibility_from_scene_event cpPressEvent =
      { cpInit with
        visible := true
        scene_rect := ⟨10, 10, 10, 10⟩
        pos := QRectF.center (QRect.toRectF ⟨10, 10, 10, 10⟩) } := by
    rw [set_event_pick_start cpInit cpPressEvent LeftButton rfl hps, hp10]
  have hem : (cpInit.set_visibility_from_scene_event cpPressEvent).expandGuard
      cpMoveUpLeftEvent = true := by
    rw [h1]
    norm_num [ColorPickerPlugin.expandGuard, cpInit, ColorPickerPlugin.mkInit,
      ColorPickerPlugin.update_position, LIVKeyShortcuts.get_default,
      LIVKeyShortcut.match_event, eventCode, cpMoveUpLeftEvent,
      ColorPickerPlugin.is_point_inside_image, ColorPickerPlugin.image_scene_rect,
      ColorPickerPlugin.map_to_screenspace, ScaleTranslate.mapRect,
      ScaleTranslate.mapPoint, QRectF.containsPoint, ControlModifier, ShiftModifier,
      AltModifier, NoModifier, LeftButton, NoButton]
    decide
  have h2 : cpAfterUpLeft =
      { cpInit with
        visible := true
        scene_rect := ⟨10, 10, 9, 9⟩
        pos := QRectF.center (QRect.toRectF ⟨10, 10, 9, 9⟩)
        control_state := .expand } := by
    show (cpInit.set_visibility_from_scene_event cpPressEvent).set_visibility_from_scene_event
        cpMoveUpLeftEvent = _
    rw [set_event_expand _ cpMoveUpLeftEvent NoButton rfl hem, hq99, h1]
  constructor
  · rw [h2]
    norm_num [get_color_picked_area, ColorPickerPlugin.get_picked_area]
    rw [normalized_eq_self _ (by norm_num) (by norm_num)]
  · norm_num

end LIV
